import Mathlib

/-!
Shallow embedding of the `vufo` music-streaming web application
(`src/app.py`, `src/database.py`): the relational store
(users → playlists → songs), the session-identity helper, the REST
handlers for search / stream-url lookup / playlist CRUD, the ephemeral
session "current playlist" endpoint, and the pytube-based stream
selection logic.

Modelling conventions:
 - SQL `Integer` primary keys are `Nat`; new rows get id `max + 1`
  (SQLite rowid assignment).  `position` is `Int` (SQL `Integer`).
 - `created_at` / `added_at` timestamp columns are omitted: no handler
  reads them apart from an isoformat echo that no claim mentions.
 - JSON request parameters are `Option`-typed; Python falsiness of a
  present value (`0` for ints, `""` for strings) is modelled by the
  `truthyNat` / `truthyStr` tests, matching `if not x:` checks.
 - Each handler is a pure function from the store (and its request
  parameters) to a `Response` paired with the resulting store.
  External network calls (YouTube search, pytube metadata fetch) are
  oracle parameters.
-/

namespace Vufo

/-- `User(id, session_id)` row of the `users` table (src/app.py lines 32-39). -/
structure User where
  id : Nat
  session_id : String
deriving DecidableEq

/-- `Playlist(id, name, user_id)` row of the `playlists` table (src/app.py lines 41-49). -/
structure Playlist where
  id : Nat
  name : String
  user_id : Nat
deriving DecidableEq

/-- `Song` row of the `songs` table (src/app.py lines 51-64). -/
structure Song where
  id : Nat
  youtube_id : String
  title : String
  duration : Option Nat
  thumbnail : Option String
  channel : Option String
  playlist_id : Nat
  position : Int
deriving DecidableEq

/-- The relational store: the three tables, each as a list of rows in
insertion order. -/
structure Store where
  users : List User
  playlists : List Playlist
  songs : List Song
deriving DecidableEq

/-- The JSON `song` payload sent by the client (`data.get('song')`), with
the keys `add_to_playlist` reads; also the shape of the per-song JSON the
server sends back. -/
structure SongData where
  id : String
  title : String
  duration : Option Nat := none
  thumbnail : Option String := none
  channel : Option String := none
deriving DecidableEq

/-- A search result video as assembled by `search_youtube` (src/app.py
lines 108-116); produced by the external search oracle. -/
structure Video where
  id : String
  title : String
  duration : Nat
  thumbnail : String
  channel : String
  url : String
deriving DecidableEq

/-- A JSON HTTP response: the status code plus the body fields the
handlers emit (absent fields are `none` / defaults). -/
structure Response where
  status : Nat
  error : Option String := none
  success : Bool := false
  message : Option String := none
  songs : Option (List SongData) := none
  playlist : Option (Nat × String) := none
  song : Option SongData := none
  results : Option (List Video) := none
  stream_url : Option String := none
  title : Option String := none
  duration : Option Nat := none
  thumbnail : Option String := none
deriving DecidableEq

/-- Python truthiness of an optional JSON integer: `if not playlist_id:`
fires when the key is absent or its value is `0`. -/
def truthyNat : Option Nat → Bool
  | none => false
  | some n => n != 0

/-- Python truthiness of an optional string: `if not s:` fires when the
key is absent or the value is the empty string. -/
def truthyStr : Option String → Bool
  | none => false
  | some s => s != ""

/-- `User.query.filter_by(session_id=sid).first()`. -/
def findUser (s : Store) (sid : String) : Option User :=
  s.users.find? (fun u => u.session_id == sid)

/-- Fresh primary key for a new row: SQLite assigns `max(id) + 1`. -/
def freshId (l : List Nat) : Nat :=
  l.foldl max 0 + 1

/-- `get_or_create_user` (src/app.py lines 66-77): look the session's
user up by `session_id`; if absent, insert a new user row and commit. -/
def get_or_create_user (s : Store) (sid : String) : User × Store :=
  match findUser s sid with
  | some u => (u, s)
  | none =>
    let u : User := { id := freshId (s.users.map (fun w => w.id)), session_id := sid }
    (u, { s with users := s.users ++ [u] })

/-- `Playlist.query.filter_by(id=pid, user_id=uid).first()`. -/
def findOwnedPlaylist (s : Store) (pid : Nat) (uid : Nat) : Option Playlist :=
  s.playlists.find? (fun p => p.id == pid && p.user_id == uid)

/-- The songs of playlist `pid`: `Song.query.filter_by(playlist_id=pid)`,
in row (insertion) order. -/
def songsOf (pid : Nat) (s : Store) : List Song :=
  s.songs.filter (fun t => t.playlist_id == pid)

/-- The position of the row returned by
`Song.query.filter_by(playlist_id=pid).order_by(Song.position.desc()).first()`:
the maximum `position` value among the playlist's songs, `none` when the
playlist is empty. -/
def maxPosition? : List Song → Option Int
  | [] => none
  | t :: ts =>
    match maxPosition? ts with
    | none => some t.position
    | some m => some (max t.position m)

/-- `next_position = last_song.position + 1 if last_song else 0`
(src/app.py line 281). -/
def nextPosition (pid : Nat) (s : Store) : Int :=
  match maxPosition? (songsOf pid s) with
  | some m => m + 1
  | none => 0

/-- The song row `add_to_playlist` inserts (src/app.py lines 283-291). -/
def mkNewSong (s : Store) (pid : Nat) (sd : SongData) : Song :=
  { id := freshId (s.songs.map (fun t => t.id))
    youtube_id := sd.id
    title := sd.title
    duration := sd.duration
    thumbnail := sd.thumbnail
    channel := sd.channel
    playlist_id := pid
    position := nextPosition pid s }

/-- The per-song JSON object the server returns from `add_to_playlist`
and `get_playlist` (src/app.py lines 296-302 and 357-363). -/
def songOut (t : Song) : SongData :=
  { id := t.youtube_id
    title := t.title
    duration := t.duration
    thumbnail := t.thumbnail
    channel := t.channel }

/-- `POST /api/playlist/create` (src/app.py lines 236-256). -/
def create_playlist (s : Store) (sid : String) (name : Option String) :
    Response × Store :=
  if !truthyStr name then
    ({ status := 400, error := some "Playlist name is required" }, s)
  else
    let n := name.getD ""
    let u := (get_or_create_user s sid).1
    let s1 := (get_or_create_user s sid).2
    match s1.playlists.find? (fun p => p.user_id == u.id && p.name == n) with
    | some _ => ({ status := 400, error := some "Playlist already exists" }, s1)
    | none =>
      let p : Playlist :=
        { id := freshId (s1.playlists.map (fun q => q.id)), name := n, user_id := u.id }
      ({ status := 200, success := true, playlist := some (p.id, p.name) },
       { s1 with playlists := s1.playlists ++ [p] })

/-- `POST /api/playlist/add` (src/app.py lines 258-302).  The Python
check `if not playlist_id or not song_data` is modelled with `truthyNat`
for the id and absence for the song object. -/
def add_to_playlist (s : Store) (sid : String) (playlist_id : Option Nat)
    (song_data : Option SongData) : Response × Store :=
  if !truthyNat playlist_id || song_data.isNone then
    ({ status := 400, error := some "Missing parameters" }, s)
  else
    let pid := playlist_id.getD 0
    let sd := song_data.getD { id := "", title := "" }
    let u := (get_or_create_user s sid).1
    let s1 := (get_or_create_user s sid).2
    match findOwnedPlaylist s1 pid u.id with
    | none => ({ status := 404, error := some "Playlist not found" }, s1)
    | some _ =>
      match s1.songs.find? (fun t => t.youtube_id == sd.id && t.playlist_id == pid) with
      | some _ =>
        ({ status := 200, success := true, message := some "Song already in playlist" }, s1)
      | none =>
        let song := mkNewSong s1 pid sd
        ({ status := 200, success := true, song := some (songOut song) },
         { s1 with songs := s1.songs ++ [song] })

/-- `POST /api/playlist/remove` (src/app.py lines 304-325): find the
first row matching `(youtube_id, playlist_id)` and delete it if present;
always report success. -/
def remove_from_playlist (s : Store) (sid : String) (playlist_id : Option Nat)
    (song_id : Option String) : Response × Store :=
  if !truthyNat playlist_id || !truthyStr song_id then
    ({ status := 400, error := some "Missing parameters" }, s)
  else
    let pid := playlist_id.getD 0
    let yid := song_id.getD ""
    let u := (get_or_create_user s sid).1
    let s1 := (get_or_create_user s sid).2
    match findOwnedPlaylist s1 pid u.id with
    | none => ({ status := 404, error := some "Playlist not found" }, s1)
    | some _ =>
      match s1.songs.find? (fun t => t.youtube_id == yid && t.playlist_id == pid) with
      | some _ =>
        ({ status := 200, success := true },
         { s1 with
            songs := s1.songs.eraseP (fun t => t.youtube_id == yid && t.playlist_id == pid) })
      | none => ({ status := 200, success := true }, s1)

/-- `POST /api/playlist/delete` (src/app.py lines 327-345).
`db.session.delete(playlist)` removes the row with primary key `pid`;
the `cascade='all, delete-orphan'` relationship (src/app.py line 49)
deletes every song whose `playlist_id` references it. -/
def delete_playlist (s : Store) (sid : String) (playlist_id : Option Nat) :
    Response × Store :=
  if !truthyNat playlist_id then
    ({ status := 400, error := some "Playlist ID is required" }, s)
  else
    let pid := playlist_id.getD 0
    let u := (get_or_create_user s sid).1
    let s1 := (get_or_create_user s sid).2
    match findOwnedPlaylist s1 pid u.id with
    | none => ({ status := 404, error := some "Playlist not found" }, s1)
    | some _ =>
      ({ status := 200, success := true },
       { s1 with
          playlists := s1.playlists.filter (fun p => p.id != pid)
          songs := s1.songs.filter (fun t => t.playlist_id != pid) })

/-- `Song.query.filter_by(playlist_id=pid).order_by(Song.position)`:
stable ascending sort by `position`. -/
def sortByPosition (l : List Song) : List Song :=
  l.insertionSort (fun a b => a.position ≤ b.position)

/-- `GET /api/playlist/<int:playlist_id>` (src/app.py lines 347-365). -/
def get_playlist (s : Store) (sid : String) (pid : Nat) : Response × Store :=
  let u := (get_or_create_user s sid).1
  let s1 := (get_or_create_user s sid).2
  match findOwnedPlaylist s1 pid u.id with
  | none => ({ status := 404, error := some "Playlist not found" }, s1)
  | some p =>
    ({ status := 200, playlist := some (p.id, p.name),
       songs := some ((sortByPosition (songsOf pid s1)).map songOut) }, s1)

/-- `GET /api/search` (src/app.py lines 194-202).  The actual search is
delegated to the external `VideosSearch` library; its (already mapped)
result list is the oracle parameter `ext`. -/
def search (s : Store) (q : String) (ext : List Video) : Response × Store :=
  if q == "" then ({ status := 400, error := some "No query provided" }, s)
  else ({ status := 200, results := some ext }, s)

/-- The character class of `[\w-]` in the video-id regexes of
`extract_video_id` (ASCII: letters, digits, underscore, hyphen). -/
def isWordChar (c : Char) : Bool :=
  c.isAlphanum || c == '_' || c == '-'

/-- Try to match `<lit>([\w-]\x7b11\x7d)` at the start of `cs`: the literal
followed by exactly eleven word characters; return the captured id. -/
def matchIdAfter (lit : List Char) (cs : List Char) : Option String :=
  if cs.take lit.length == lit then
    let rest := cs.drop lit.length
    if rest.length ≥ 11 && (rest.take 11).all isWordChar then
      some (String.mk (rest.take 11))
    else none
  else none

/-- `re.search` for one of the id patterns: try the match at every start
position, left to right. -/
def searchVideoId (lit : List Char) : List Char → Option String
  | [] => matchIdAfter lit []
  | c :: cs =>
    match matchIdAfter lit (c :: cs) with
    | some v => some v
    | none => searchVideoId lit cs

/-- `extract_video_id` (src/app.py lines 123-140): try the four URL
patterns in order, then accept a bare 11-character id. -/
def extract_video_id (url : String) : Option String :=
  let cs := url.data
  match searchVideoId "youtube.com/watch?v=".data cs with
  | some v => some v
  | none =>
  match searchVideoId "youtu.be/".data cs with
  | some v => some v
  | none =>
  match searchVideoId "youtube.com/embed/".data cs with
  | some v => some v
  | none =>
  match searchVideoId "youtube.com/v/".data cs with
  | some v => some v
  | none =>
  if url.length == 11 && cs.all isWordChar then some url else none

/-- A pytube stream (format) with the attributes the selection reads.
`resolution` and `abr` carry the numeric value pytube's `order_by`
extracts from strings like `"720p"` / `"128kbps"`, `none` when the
attribute is `None` (pytube's `order_by` drops those streams). -/
structure Fmt where
  url : String
  progressive : Bool
  file_extension : String
  resolution : Option Nat
  only_audio : Bool
  includes_audio_track : Bool
  abr : Option Nat
deriving DecidableEq

/-- A fetched `YouTube` object: its stream list and the metadata fields
`get_audio_stream_url` reads. -/
structure YT where
  streams : List Fmt
  title : String
  length : Nat
  thumbnail_url : String
deriving DecidableEq

/-- The dictionary `get_audio_stream_url` returns (the constant request
headers are omitted). -/
structure StreamInfo where
  stream_url : String
  title : String
  duration : Nat
  thumbnail : String
deriving DecidableEq

/-- pytube's `.order_by(attr).desc()`: drop streams whose attribute is
`None`, stable-sort the rest ascending by the attribute's numeric value,
then reverse. -/
def orderByDesc (key : Fmt → Option Nat) (l : List Fmt) : List Fmt :=
  ((l.filter (fun f => (key f).isSome)).insertionSort
      (fun a b => (key a).getD 0 ≤ (key b).getD 0)).reverse

/-- The response dictionary built from a chosen stream (src/app.py
lines 154-165 and 170-182). -/
def mkInfo (yt : YT) (st : Fmt) : StreamInfo :=
  { stream_url := st.url, title := yt.title, duration := yt.length,
    thumbnail := yt.thumbnail_url }

/-- `get_audio_stream_url` (src/app.py lines 142-187): fetch the video's
metadata (network, modelled by the oracle `fetch`; `none` models the
`except` branch returning `None`); prefer the highest-resolution
progressive mp4 stream, falling back to the highest-bitrate audio-only
stream. -/
def get_audio_stream_url (fetch : String → Option YT) (video_id : String) :
    Option StreamInfo :=
  match fetch video_id with
  | none => none
  | some yt =>
    let prog := orderByDesc (fun f => f.resolution)
        (yt.streams.filter (fun f => f.progressive && f.file_extension == "mp4"))
    match prog.head? with
    | some st => some (mkInfo yt st)
    | none =>
      let auds := orderByDesc (fun f => f.abr) (yt.streams.filter (fun f => f.only_audio))
      match auds.head? with
      | some st => some (mkInfo yt st)
      | none => none

/-- Modelled from the spec: the stream pick the spec sentence describes
("picks the highest-bitrate audio-only format, falling back to any track
with an audio codec"), for comparison with `get_audio_stream_url`. -/
def specAudioFirstPick (yt : YT) : Option String :=
  match (orderByDesc (fun f => f.abr) (yt.streams.filter (fun f => f.only_audio))).head? with
  | some st => some st.url
  | none => ((yt.streams.filter (fun f => f.includes_audio_track)).head?).map (fun f => f.url)

/-- `GET /api/get_stream_url` (src/app.py lines 204-234). -/
def get_stream_url (s : Store) (video_id url : Option String)
    (fetch : String → Option YT) : Response × Store :=
  if !truthyStr video_id && !truthyStr url then
    ({ status := 400, error := some "No video ID or URL provided" }, s)
  else
    let vid : Option String :=
      if !truthyStr video_id then extract_video_id (url.getD "") else video_id
    if !truthyStr vid then
      ({ status := 400, error := some "Could not extract video ID" }, s)
    else
      match get_audio_stream_url fetch (vid.getD "") with
      | some info =>
        ({ status := 200, stream_url := some info.stream_url, title := some info.title,
           duration := some info.duration, thumbnail := some info.thumbnail }, s)
      | none => ({ status := 500, error := some "Could not extract stream URL" }, s)

/-- HTTP method of a request to `/api/current_playlist`. -/
inductive Method
  | get
  | post
  | delete
deriving DecidableEq

/-- `/api/current_playlist` (src/app.py lines 385-423): the ephemeral
per-session list stored in the cookie.  Takes the session's stored list
(`none` when the key is absent), the method, and the request fields; a
request that matches no action branch falls through to the final
`'Invalid action'` 400.  Returns the response and the session list after
the request. -/
def current_playlist (sess : Option (List SongData)) (method : Method)
    (action : Option String) (songArg : Option SongData)
    (songsArg : Option (List SongData)) (song_id : Option String) :
    Response × List SongData :=
  let cur := sess.getD []
  match method with
  | .get => ({ status := 200, songs := some cur }, cur)
  | .post =>
    if action == some "add" then
      match songArg with
      | some sd =>
        if cur.all (fun t => t.id != sd.id) then
          ({ status := 200, success := true, songs := some (cur ++ [sd]) }, cur ++ [sd])
        else ({ status := 400, error := some "Invalid action" }, cur)
      | none => ({ status := 400, error := some "Invalid action" }, cur)
    else if action == some "clear" then
      ({ status := 200, success := true, songs := some [] }, [])
    else if action == some "set" then
      let ns := songsArg.getD []
      ({ status := 200, success := true, songs := some ns }, ns)
    else ({ status := 400, error := some "Invalid action" }, cur)
  | .delete =>
    if truthyStr song_id then
      let ns := cur.filter (fun t => t.id != song_id.getD "")
      ({ status := 200, success := true, songs := some ns }, ns)
    else ({ status := 400, error := some "Invalid action" }, cur)

/-- A single request to `add_to_playlist`, for iterating sequences of
adds. -/
structure AddReq where
  sid : String
  playlist_id : Option Nat
  song : Option SongData
deriving DecidableEq

/-- Apply a sequence of `add_to_playlist` requests to the store. -/
def applyAdds (s : Store) : List AddReq → Store
  | [] => s
  | r :: rs => applyAdds (add_to_playlist s r.sid r.playlist_id r.song).2 rs

/-- Apply `add_to_playlist` for a fixed session and playlist over a list
of song payloads. -/
def addSongs (s : Store) (sid : String) (pid : Nat) : List SongData → Store
  | [] => s
  | sd :: sds => addSongs (add_to_playlist s sid (some pid) (some sd)).2 sid pid sds

/-- The positions of playlist `pid`'s songs, in row order. -/
def positionsOf (pid : Nat) (s : Store) : List Int :=
  (songsOf pid s).map (fun t => t.position)

/-- The `(youtube_id, playlist_id)` uniqueness constraint
`unique_song_in_playlist` (src/app.py line 64, src/database.py line 39). -/
def NoDupSongKeys (s : Store) : Prop :=
  (s.songs.map (fun t => (t.youtube_id, t.playlist_id))).Nodup

/-! ### Concrete example data used by counterexamples and witnesses -/

/-- The store of a fresh deployment: all tables empty. -/
def emptyStore : Store := { users := [], playlists := [], songs := [] }

/-- A populated store: two users; `bob` owns playlist 5, `alice` owns
playlists 3 (two songs) and 4 (empty). -/
def wStore : Store :=
  { users := [{ id := 1, session_id := "alice" }, { id := 2, session_id := "bob" }]
    playlists := [{ id := 5, name := "mix", user_id := 2 },
                  { id := 3, name := "faves", user_id := 1 },
                  { id := 4, name := "fresh", user_id := 1 }]
    songs := [{ id := 1, youtube_id := "y1", title := "s1", duration := some 120,
                thumbnail := none, channel := none, playlist_id := 3, position := 0 },
              { id := 2, youtube_id := "y2", title := "s2", duration := none,
                thumbnail := none, channel := none, playlist_id := 3, position := 1 }] }

/-- A progressive (audio+video) mp4 stream at 360p, bitrate 96kbps. -/
def exFmtProg : Fmt :=
  { url := "P", progressive := true, file_extension := "mp4",
    resolution := some 360, only_audio := false, includes_audio_track := true,
    abr := some 96 }

/-- An audio-only webm stream at 160kbps. -/
def exFmtAudio : Fmt :=
  { url := "A", progressive := false, file_extension := "webm",
    resolution := none, only_audio := true, includes_audio_track := true,
    abr := some 160 }

/-- A video offering both streams of the pair above. -/
def exYT : YT :=
  { streams := [exFmtProg, exFmtAudio], title := "t", length := 100,
    thumbnail_url := "th" }

/-- A metadata-fetch oracle knowing only the video `"vid"`. -/
def exFetch : String → Option YT :=
  fun v => if v == "vid" then some exYT else none

/-- Song payloads for witnesses. -/
def sdY3 : SongData := { id := "y3", title := "s3" }

def sdY8 : SongData := { id := "y8", title := "s8", duration := some 7 }

def sdY9 : SongData := { id := "y9", title := "s9" }

/-! ### Helper lemmas about the embedded operations -/

theorem gocu_playlists (s : Store) (sid : String) :
    ((get_or_create_user s sid).2).playlists = s.playlists := by
  unfold get_or_create_user
  split <;> rfl

theorem gocu_songs (s : Store) (sid : String) :
    ((get_or_create_user s sid).2).songs = s.songs := by
  unfold get_or_create_user
  split <;> rfl

theorem gocu_found {s : Store} {sid : String} {u : User}
    (hu : findUser s sid = some u) : get_or_create_user s sid = (u, s) := by
  unfold get_or_create_user
  rw [hu]

theorem songsOf_gocu (pid : Nat) (s : Store) (sid : String) :
    songsOf pid ((get_or_create_user s sid).2) = songsOf pid s := by
  unfold songsOf
  rw [gocu_songs]

theorem nextPosition_gocu (pid : Nat) (s : Store) (sid : String) :
    nextPosition pid ((get_or_create_user s sid).2) = nextPosition pid s := by
  unfold nextPosition
  rw [songsOf_gocu]

theorem maxPosition?_eq_none {l : List Song} : maxPosition? l = none ↔ l = [] := by
  cases l with
  | nil => simp [maxPosition?]
  | cons a l =>
    simp only [maxPosition?]
    cases maxPosition? l <;> simp

theorem le_maxPosition? {l : List Song} {m : Int} (hm : maxPosition? l = some m) :
    ∀ t ∈ l, t.position ≤ m := by
  induction l generalizing m with
  | nil => simp
  | cons a l ih =>
    intro t ht
    simp only [maxPosition?] at hm
    cases h : maxPosition? l with
    | none =>
      rw [h] at hm
      simp only [Option.some.injEq] at hm
      subst hm
      rcases List.mem_cons.mp ht with rfl | ht'
      · exact le_refl _
      · rw [maxPosition?_eq_none.mp h] at ht'
        simp at ht'
    | some m' =>
      rw [h] at hm
      simp only [Option.some.injEq] at hm
      subst hm
      rcases List.mem_cons.mp ht with rfl | ht'
      · exact le_max_left _ _
      · exact le_trans (ih h t ht') (le_max_right _ _)

theorem maxPosition?_mem {l : List Song} {m : Int} (hm : maxPosition? l = some m) :
    ∃ t ∈ l, t.position = m := by
  induction l generalizing m with
  | nil => simp [maxPosition?] at hm
  | cons a l ih =>
    simp only [maxPosition?] at hm
    cases h : maxPosition? l with
    | none =>
      rw [h] at hm
      simp only [Option.some.injEq] at hm
      exact ⟨a, List.mem_cons_self _ _, hm⟩
    | some m' =>
      rw [h] at hm
      simp only [Option.some.injEq] at hm
      subst hm
      rcases max_choice a.position m' with hc | hc
      · exact ⟨a, List.mem_cons_self _ _, hc.symm⟩
      · obtain ⟨t, ht, ht'⟩ := ih h
        exact ⟨t, List.mem_cons_of_mem _ ht, by rw [hc, ht']⟩

theorem lt_nextPosition {pid : Nat} {s : Store} :
    ∀ t ∈ songsOf pid s, t.position < nextPosition pid s := by
  intro t ht
  unfold nextPosition
  cases h : maxPosition? (songsOf pid s) with
  | none =>
    rw [maxPosition?_eq_none.mp h] at ht
    simp at ht
  | some m =>
    have h2 := le_maxPosition? h t ht
    show t.position < m + 1
    omega

/-- The effect of `add_to_playlist` on the `add_to_playlist` insert
branch, when the session user exists, the playlist is found and the song
is not yet present. -/
theorem add_insert_spec {s : Store} {sid : String} {u : User} {pid : Nat} {sd : SongData}
    (hu : findUser s sid = some u) (hpid : pid ≠ 0)
    (hp : (findOwnedPlaylist s pid u.id).isSome = true)
    (hnew : s.songs.find? (fun t => t.youtube_id == sd.id && t.playlist_id == pid) = none) :
    add_to_playlist s sid (some pid) (some sd)
      = ({ status := 200, success := true, song := some (songOut (mkNewSong s pid sd)) },
         { s with songs := s.songs ++ [mkNewSong s pid sd] }) := by
  obtain ⟨p, hp'⟩ := Option.isSome_iff_exists.mp hp
  have hc : (!truthyNat (some pid) || (some sd : Option SongData).isNone) = false := by
    simp [truthyNat, hpid]
  unfold add_to_playlist
  rw [hc]
  simp only [Bool.false_eq_true, if_false, Option.getD_some, gocu_found hu, hp', hnew]

/-- Any `add_to_playlist` call either leaves the songs of playlist `pid`
unchanged, or appends to them exactly one song, whose position is
`nextPosition pid s`. -/
theorem songsOf_add_cases (pid : Nat) (s : Store) (sid : String) (opid : Option Nat)
    (osd : Option SongData) :
    songsOf pid (add_to_playlist s sid opid osd).2 = songsOf pid s
  ∨ ∃ t : Song, t.position = nextPosition pid s
      ∧ songsOf pid (add_to_playlist s sid opid osd).2 = songsOf pid s ++ [t] := by
  unfold add_to_playlist
  by_cases hc : (!truthyNat opid || osd.isNone) = true
  · rw [if_pos hc]
    exact Or.inl rfl
  · rw [if_neg hc]
    have hs1 : ((get_or_create_user s sid).2).songs = s.songs := gocu_songs s sid
    cases hfp : findOwnedPlaylist (get_or_create_user s sid).2 (opid.getD 0)
        ((get_or_create_user s sid).1).id with
    | none =>
      simp only [hfp]
      left
      show songsOf pid (get_or_create_user s sid).2 = songsOf pid s
      exact songsOf_gocu pid s sid
    | some p =>
      simp only [hfp]
      cases hdup : ((get_or_create_user s sid).2).songs.find?
          (fun t => t.youtube_id == (osd.getD { id := "", title := "" }).id
            && t.playlist_id == opid.getD 0) with
      | some t0 =>
        simp only [hdup]
        left
        exact songsOf_gocu pid s sid
      | none =>
        simp only [hdup]
        by_cases hpid : opid.getD 0 = pid
        · right
          refine ⟨mkNewSong (get_or_create_user s sid).2 (opid.getD 0)
              (osd.getD { id := "", title := "" }), ?_, ?_⟩
          · show nextPosition (opid.getD 0) (get_or_create_user s sid).2 = nextPosition pid s
            rw [hpid, nextPosition_gocu]
          · show songsOf pid
                { (get_or_create_user s sid).2 with
                  songs := ((get_or_create_user s sid).2).songs ++ [_] } = _
            unfold songsOf
            rw [List.filter_append]
            simp only [hs1]
            congr 1
            rw [List.filter_cons]
            simp [mkNewSong, hpid]
        · left
          show songsOf pid
              { (get_or_create_user s sid).2 with
                songs := ((get_or_create_user s sid).2).songs ++ [_] } = _
          unfold songsOf
          rw [List.filter_append]
          simp only [hs1]
          have : (List.filter (fun t => t.playlist_id == pid)
              [mkNewSong (get_or_create_user s sid).2 (opid.getD 0)
                (osd.getD { id := "", title := "" })]) = [] := by
            rw [List.filter_cons]
            simp [mkNewSong, hpid]
          rw [this, List.append_nil]

/-- One `add_to_playlist` call preserves strict increase of the positions
of any playlist's songs. -/
theorem pairwise_songsOf_add (pid : Nat) (s : Store) (sid : String) (opid : Option Nat)
    (osd : Option SongData)
    (h : List.Pairwise (fun a b : Song => a.position < b.position) (songsOf pid s)) :
    List.Pairwise (fun a b : Song => a.position < b.position)
      (songsOf pid (add_to_playlist s sid opid osd).2) := by
  rcases songsOf_add_cases pid s sid opid osd with heq | ⟨t, hpos, heq⟩
  · rwa [heq]
  · rw [heq, List.pairwise_append]
    refine ⟨h, by simp, ?_⟩
    intro a ha b hb
    simp only [List.mem_singleton] at hb
    subst hb
    rw [hpos]
    exact lt_nextPosition a ha

/-- Any sequence of `add_to_playlist` calls preserves strict increase of
the positions of any playlist's songs. -/
theorem pairwise_songsOf_applyAdds (pid : Nat) (rs : List AddReq) :
    ∀ s : Store,
      List.Pairwise (fun a b : Song => a.position < b.position) (songsOf pid s) →
      List.Pairwise (fun a b : Song => a.position < b.position)
        (songsOf pid (applyAdds s rs)) := by
  induction rs with
  | nil => intro s h; exact h
  | cons r rs ih =>
    intro s h
    exact ih _ (pairwise_songsOf_add pid s r.sid r.playlist_id r.song h)

theorem mem_of_getLast?_eq {α : Type} {l : List α} {a : α} (h : l.getLast? = some a) :
    a ∈ l := by
  induction l with
  | nil => simp at h
  | cons b l ih =>
    cases l with
    | nil =>
      rw [List.getLast?_singleton] at h
      simp only [Option.some.injEq] at h
      subst h
      exact List.mem_singleton_self _
    | cons c l' =>
      rw [List.getLast?_cons_cons] at h
      exact List.mem_cons_of_mem _ (ih h)

theorem sorted_getLast?_le {α : Type} {val : α → Nat} {l : List α} {a : α}
    (hs : List.Sorted (fun x y => val x ≤ val y) l) (h : l.getLast? = some a) :
    ∀ x ∈ l, val x ≤ val a := by
  induction l with
  | nil => simp
  | cons b l ih =>
    intro x hx
    cases l with
    | nil =>
      rw [List.getLast?_singleton] at h
      simp only [Option.some.injEq] at h
      subst h
      simp only [List.mem_singleton] at hx
      subst hx
      exact le_refl _
    | cons c l' =>
      rw [List.getLast?_cons_cons] at h
      have hrest := (List.sorted_cons.mp hs).2
      rcases List.mem_cons.mp hx with rfl | hx'
      · exact (List.sorted_cons.mp hs).1 a (mem_of_getLast?_eq h)
      · exact ih hrest h x hx'

/-- The head of an `orderByDesc` result is a stream of the input list,
has the sort attribute present, and maximizes its value. -/
theorem orderByDesc_head_spec {key : Fmt → Option Nat} {l : List Fmt} {st : Fmt}
    (h : (orderByDesc key l).head? = some st) :
    st ∈ l ∧ (key st).isSome = true
      ∧ ∀ t ∈ l, ∀ r : Nat, key t = some r → r ≤ (key st).getD 0 := by
  unfold orderByDesc at h
  rw [List.head?_reverse] at h
  have hmem : st ∈ (l.filter (fun f => (key f).isSome)).insertionSort
      (fun a b => (key a).getD 0 ≤ (key b).getD 0) :=
    mem_of_getLast?_eq h
  rw [List.mem_insertionSort, List.mem_filter] at hmem
  haveI : IsTotal Fmt (fun a b => (key a).getD 0 ≤ (key b).getD 0) :=
    ⟨fun a b => le_total _ _⟩
  haveI : IsTrans Fmt (fun a b => (key a).getD 0 ≤ (key b).getD 0) :=
    ⟨fun _ _ _ hab hbc => le_trans hab hbc⟩
  have hs := List.sorted_insertionSort (fun a b => (key a).getD 0 ≤ (key b).getD 0)
      (l.filter (fun f => (key f).isSome))
  refine ⟨hmem.1, hmem.2, ?_⟩
  intro t ht r hr
  have htf : t ∈ (l.filter (fun f => (key f).isSome)).insertionSort
      (fun a b => (key a).getD 0 ≤ (key b).getD 0) := by
    rw [List.mem_insertionSort, List.mem_filter]
    exact ⟨ht, by rw [hr]; rfl⟩
  have h2 := @sorted_getLast?_le Fmt (fun f => (key f).getD 0) _ _ hs h t htf
  simpa [hr] using h2

/-- When `orderByDesc` yields nothing, no input stream carries the sort
attribute. -/
theorem orderByDesc_head_none {key : Fmt → Option Nat} {l : List Fmt}
    (h : (orderByDesc key l).head? = none) :
    ∀ t ∈ l, key t = none := by
  unfold orderByDesc at h
  rw [List.head?_reverse, List.getLast?_eq_none_iff] at h
  have hperm := List.perm_insertionSort (fun a b => (key a).getD 0 ≤ (key b).getD 0)
      (l.filter (fun f => (key f).isSome))
  rw [h] at hperm
  have hnil : l.filter (fun f => (key f).isSome) = [] :=
    (List.perm_nil.mp hperm.symm)
  intro t ht
  have h2 := List.filter_eq_nil_iff.mp hnil t ht
  cases hkt : key t with
  | none => rfl
  | some r =>
    rw [hkt] at h2
    simp at h2

/-! ### The claims -/

/-- C4: for every API endpoint called without a required parameter
(empty/absent query for search, neither video id nor url for stream
lookup, missing name for playlist create, missing playlist id or song
for add, missing playlist id or song id for remove, missing playlist id
for delete), the response is HTTP 400 with a JSON error field and the
store is unchanged. -/
theorem missing_params_return_400 (s : Store) (sid : String) (ext : List Video)
    (fetch : String → Option YT) (osd : Option SongData) (opid : Option Nat)
    (oyid : Option String) :
    search s "" ext = ({ status := 400, error := some "No query provided" }, s)
  ∧ get_stream_url s none none fetch
      = ({ status := 400, error := some "No video ID or URL provided" }, s)
  ∧ create_playlist s sid none
      = ({ status := 400, error := some "Playlist name is required" }, s)
  ∧ add_to_playlist s sid none osd
      = ({ status := 400, error := some "Missing parameters" }, s)
  ∧ add_to_playlist s sid opid none
      = ({ status := 400, error := some "Missing parameters" }, s)
  ∧ remove_from_playlist s sid none oyid
      = ({ status := 400, error := some "Missing parameters" }, s)
  ∧ remove_from_playlist s sid opid none
      = ({ status := 400, error := some "Missing parameters" }, s)
  ∧ delete_playlist s sid none
      = ({ status := 400, error := some "Playlist ID is required" }, s) := by
  refine ⟨rfl, rfl, rfl, rfl, ?_, rfl, ?_, rfl⟩ <;>
    simp [add_to_playlist, remove_from_playlist, truthyNat, truthyStr]

/-- C8: a POST to the current-playlist endpoint with action add and a
song whose id is already in the session's list does not take the add
branch: control falls through to the final 400 Invalid action response
and the session list is unchanged. -/
theorem current_add_duplicate_invalid_action (cur : List SongData) (sd : SongData)
    (osongs : Option (List SongData)) (oyid : Option String)
    (h : sd.id ∈ cur.map (fun t => t.id)) :
    current_playlist (some cur) Method.post (some "add") (some sd) osongs oyid
      = ({ status := 400, error := some "Invalid action" }, cur) := by
  have hc : (cur.all (fun t => t.id != sd.id)) = false := by
    rw [List.all_eq_false]
    obtain ⟨t, ht, hid⟩ := List.mem_map.mp h
    exact ⟨t, ht, by simp [hid]⟩
  simp [current_playlist, hc]

/-- C8 witness: a concrete duplicate add is rejected with 400. -/
theorem current_add_duplicate_invalid_action_witness :
    sdY3.id ∈ ([sdY3, sdY8].map (fun t => t.id))
  ∧ current_playlist (some [sdY3, sdY8]) Method.post (some "add") (some sdY3) none none
      = ({ status := 400, error := some "Invalid action" }, [sdY3, sdY8]) :=
  ⟨by decide,
   current_add_duplicate_invalid_action [sdY3, sdY8] sdY3 none none (by decide)⟩

/-- C5 counterexample: a playlist lookup from a session with no user row
yet answers 404 Playlist not found but does NOT leave the store
unchanged: `get_or_create_user` inserts a user row first, refuting the
claim as stated. -/
theorem playlist_not_found_store_changed_counterexample :
    (get_playlist emptyStore "alice" 1).1.status = 404
  ∧ (get_playlist emptyStore "alice" 1).1.error = some "Playlist not found"
  ∧ (get_playlist emptyStore "alice" 1).2 ≠ emptyStore := by decide

/-- C5 (amended): for every playlist operation naming a playlist id, if
no playlist with that id belongs to the session's user (including a
playlist owned by another user), the response is 404 with error
Playlist not found; the resulting store is exactly the one produced by
`get_or_create_user`, whose playlists and songs tables equal the
original ones (only a user row may have been added for a previously
unseen session). -/
theorem playlist_not_found_404 (s : Store) (sid : String) (pid : Nat) (sd : SongData)
    (yid : String) (hpid : pid ≠ 0) (hyid : yid ≠ "")
    (h : ∀ p ∈ s.playlists, ¬(p.id = pid ∧ p.user_id = ((get_or_create_user s sid).1).id)) :
    get_playlist s sid pid
      = ({ status := 404, error := some "Playlist not found" }, (get_or_create_user s sid).2)
  ∧ add_to_playlist s sid (some pid) (some sd)
      = ({ status := 404, error := some "Playlist not found" }, (get_or_create_user s sid).2)
  ∧ remove_from_playlist s sid (some pid) (some yid)
      = ({ status := 404, error := some "Playlist not found" }, (get_or_create_user s sid).2)
  ∧ delete_playlist s sid (some pid)
      = ({ status := 404, error := some "Playlist not found" }, (get_or_create_user s sid).2)
  ∧ ((get_or_create_user s sid).2).playlists = s.playlists
  ∧ ((get_or_create_user s sid).2).songs = s.songs := by
  have hfp : findOwnedPlaylist (get_or_create_user s sid).2 pid
      ((get_or_create_user s sid).1).id = none := by
    unfold findOwnedPlaylist
    rw [List.find?_eq_none]
    intro p hp
    rw [gocu_playlists] at hp
    simp only [Bool.and_eq_true, beq_iff_eq, not_and]
    intro h1 h2
    exact h p hp ⟨h1, h2⟩
  have hcadd : (!truthyNat (some pid) || (some sd : Option SongData).isNone) = false := by
    simp [truthyNat, hpid]
  have hcrem : (!truthyNat (some pid) || !truthyStr (some yid)) = false := by
    simp [truthyNat, truthyStr, hpid, hyid]
  have hcdel : (!truthyNat (some pid)) = false := by
    simp [truthyNat, hpid]
  refine ⟨?_, ?_, ?_, ?_, gocu_playlists s sid, gocu_songs s sid⟩
  · simp only [get_playlist, hfp]
  · simp only [add_to_playlist, hcadd, Bool.false_eq_true, if_false, Option.getD_some, hfp]
  · simp only [remove_from_playlist, hcrem, Bool.false_eq_true, if_false,
      Option.getD_some, hfp]
  · simp only [delete_playlist, hcdel, Bool.false_eq_true, if_false, Option.getD_some, hfp]

/-- C5 witness: session `alice` exists, playlist 5 exists but belongs to
`bob`: every operation answers 404 and the store is untouched. -/
theorem playlist_not_found_404_witness :
    ((5 : Nat) ≠ 0 ∧ ("zz" : String) ≠ ""
      ∧ ∀ p ∈ wStore.playlists,
          ¬(p.id = 5 ∧ p.user_id = ((get_or_create_user wStore "alice").1).id))
  ∧ get_playlist wStore "alice" 5
      = ({ status := 404, error := some "Playlist not found" },
         (get_or_create_user wStore "alice").2)
  ∧ (delete_playlist wStore "alice" (some 5)).2.playlists = wStore.playlists :=
  ⟨⟨by decide, by decide, by decide⟩,
   (playlist_not_found_404 wStore "alice" 5 sdY3 "zz" (by decide) (by decide) (by decide)).1,
   by
    have hw := playlist_not_found_404 wStore "alice" 5 sdY3 "zz" (by decide) (by decide)
      (by decide)
    rw [hw.2.2.2.1]
    exact hw.2.2.2.2.1⟩

/-- C1 counterexample: for a video offering a progressive mp4 stream and
a higher-bitrate audio-only stream, the code returns the progressive
stream's URL, not the audio-only one the claim prescribes. -/
theorem stream_selection_counterexample :
    (get_audio_stream_url exFetch "vid").map (fun i => i.stream_url) = some "P"
  ∧ specAudioFirstPick exYT = some "A"
  ∧ (get_audio_stream_url exFetch "vid").map (fun i => i.stream_url)
      ≠ specAudioFirstPick exYT := by decide

/-- C1 (amended): the stream-resolution operation picks the
highest-resolution progressive (audio+video) mp4 format as its first
choice, and only if no such format (with a known resolution) exists
falls back to the highest-bitrate audio-only format; the returned
stream_url is the URL of the format so selected. -/
theorem stream_selection_prefers_progressive (fetch : String → Option YT) (v : String)
    (yt : YT) (info : StreamInfo) (hf : fetch v = some yt)
    (h : get_audio_stream_url fetch v = some info) :
    (∃ st ∈ yt.streams, st.progressive = true ∧ st.file_extension = "mp4"
        ∧ st.resolution.isSome = true ∧ info.stream_url = st.url
        ∧ ∀ t ∈ yt.streams, t.progressive = true → t.file_extension = "mp4" →
            ∀ r : Nat, t.resolution = some r → r ≤ st.resolution.getD 0)
  ∨ ((∀ t ∈ yt.streams, t.progressive = true → t.file_extension = "mp4" →
        t.resolution = none)
      ∧ ∃ st ∈ yt.streams, st.only_audio = true ∧ st.abr.isSome = true
          ∧ info.stream_url = st.url
          ∧ ∀ t ∈ yt.streams, t.only_audio = true →
              ∀ r : Nat, t.abr = some r → r ≤ st.abr.getD 0) := by
  simp only [get_audio_stream_url, hf] at h
  cases hh : (orderByDesc (fun f => f.resolution)
      (yt.streams.filter (fun f => f.progressive && f.file_extension == "mp4"))).head? with
  | some st =>
    rw [hh] at h
    simp only [Option.some.injEq] at h
    obtain ⟨hmem, hres, hmax⟩ := orderByDesc_head_spec hh
    rw [List.mem_filter] at hmem
    obtain ⟨hmem1, hmem2⟩ := hmem
    simp only [Bool.and_eq_true, beq_iff_eq] at hmem2
    left
    refine ⟨st, hmem1, hmem2.1, hmem2.2, hres, by rw [← h]; rfl, ?_⟩
    intro t ht htp htm r hr
    exact hmax t (List.mem_filter.mpr ⟨ht, by simp [htp, htm]⟩) r hr
  | none =>
    rw [hh] at h
    have hnoprog : ∀ t ∈ yt.streams, t.progressive = true → t.file_extension = "mp4" →
        t.resolution = none := by
      intro t ht htp htm
      exact orderByDesc_head_none hh t (List.mem_filter.mpr ⟨ht, by simp [htp, htm]⟩)
    cases hh2 : (orderByDesc (fun f => f.abr)
        (yt.streams.filter (fun f => f.only_audio))).head? with
    | some st =>
      rw [hh2] at h
      simp only [Option.some.injEq] at h
      obtain ⟨hmem, habr, hmax⟩ := orderByDesc_head_spec hh2
      rw [List.mem_filter] at hmem
      right
      refine ⟨hnoprog, st, hmem.1, hmem.2, habr, by rw [← h]; rfl, ?_⟩
      intro t ht hta r hr
      exact hmax t (List.mem_filter.mpr ⟨ht, hta⟩) r hr
    | none =>
      rw [hh2] at h
      simp at h

/-- C1 witness: the amended selection at the concrete two-stream video:
the progressive 360p mp4 stream is chosen. -/
theorem stream_selection_prefers_progressive_witness :
    (exFetch "vid" = some exYT
      ∧ get_audio_stream_url exFetch "vid"
          = some { stream_url := "P", title := "t", duration := 100, thumbnail := "th" })
  ∧ ((∃ st ∈ exYT.streams, st.progressive = true ∧ st.file_extension = "mp4"
        ∧ st.resolution.isSome = true
        ∧ ({ stream_url := "P", title := "t", duration := 100,
             thumbnail := "th" } : StreamInfo).stream_url = st.url
        ∧ ∀ t ∈ exYT.streams, t.progressive = true → t.file_extension = "mp4" →
            ∀ r : Nat, t.resolution = some r → r ≤ st.resolution.getD 0)
    ∨ ((∀ t ∈ exYT.streams, t.progressive = true → t.file_extension = "mp4" →
          t.resolution = none)
        ∧ ∃ st ∈ exYT.streams, st.only_audio = true ∧ st.abr.isSome = true
            ∧ ({ stream_url := "P", title := "t", duration := 100,
                 thumbnail := "th" } : StreamInfo).stream_url = st.url
            ∧ ∀ t ∈ exYT.streams, t.only_audio = true →
                ∀ r : Nat, t.abr = some r → r ≤ st.abr.getD 0)) :=
  ⟨⟨by decide, by decide⟩,
   stream_selection_prefers_progressive exFetch "vid" exYT
     { stream_url := "P", title := "t", duration := 100, thumbnail := "th" }
     (by decide) (by decide)⟩

/-- C2: an inserted song is appended to the target playlist with a
position strictly greater than every existing position, equal to the
current maximum plus one (and 0 for an empty playlist); consequently,
after any sequence of add requests starting from a state where the
playlist is empty, the positions of the playlist's songs form a strictly
increasing integer sequence. -/
theorem add_assigns_max_position_plus_one (s : Store) (sid : String) (u : User)
    (pid : Nat) (sd : SongData) (s0 : Store) (rs : List AddReq)
    (hu : findUser s sid = some u) (hpid : pid ≠ 0)
    (hp : (findOwnedPlaylist s pid u.id).isSome = true)
    (hnew : ∀ t ∈ s.songs, ¬(t.youtube_id = sd.id ∧ t.playlist_id = pid))
    (h0 : songsOf pid s0 = []) :
    (∃ t : Song,
        songsOf pid (add_to_playlist s sid (some pid) (some sd)).2 = songsOf pid s ++ [t]
      ∧ (∀ r ∈ songsOf pid s, r.position < t.position)
      ∧ (songsOf pid s = [] → t.position = 0)
      ∧ (∀ m : Int, maxPosition? (songsOf pid s) = some m → t.position = m + 1))
  ∧ List.Pairwise (fun a b : Int => a < b) (positionsOf pid (applyAdds s0 rs)) := by
  constructor
  · have hfind : s.songs.find?
        (fun t => t.youtube_id == sd.id && t.playlist_id == pid) = none := by
      rw [List.find?_eq_none]
      intro t ht
      simp only [Bool.and_eq_true, beq_iff_eq, not_and]
      intro h1 h2
      exact hnew t ht ⟨h1, h2⟩
    rw [add_insert_spec hu hpid hp hfind]
    refine ⟨mkNewSong s pid sd, ?_, ?_, ?_, ?_⟩
    · show songsOf pid { s with songs := s.songs ++ [mkNewSong s pid sd] } = _
      unfold songsOf
      rw [List.filter_append]
      congr 1
      rw [List.filter_cons]
      simp [mkNewSong]
    · intro r hr
      exact lt_nextPosition r hr
    · intro hemp
      show nextPosition pid s = 0
      unfold nextPosition
      rw [hemp]
      rfl
    · intro m hm
      show nextPosition pid s = m + 1
      unfold nextPosition
      rw [hm]
  · unfold positionsOf
    rw [List.pairwise_map]
    apply pairwise_songsOf_applyAdds
    rw [h0]
    exact List.Pairwise.nil

/-- C2 witness: adding song y3 to alice's playlist 3 (positions 0, 1)
appends it at position 2; a concrete add sequence from the empty store
yields strictly increasing positions. -/
theorem add_assigns_max_position_plus_one_witness :
    (findUser wStore "alice" = some { id := 1, session_id := "alice" }
      ∧ (3 : Nat) ≠ 0
      ∧ (findOwnedPlaylist wStore 3 1).isSome = true
      ∧ (∀ t ∈ wStore.songs, ¬(t.youtube_id = sdY3.id ∧ t.playlist_id = 3))
      ∧ songsOf 3 emptyStore = [])
  ∧ ((∃ t : Song,
        songsOf 3 (add_to_playlist wStore "alice" (some 3) (some sdY3)).2
            = songsOf 3 wStore ++ [t]
      ∧ (∀ r ∈ songsOf 3 wStore, r.position < t.position)
      ∧ (songsOf 3 wStore = [] → t.position = 0)
      ∧ (∀ m : Int, maxPosition? (songsOf 3 wStore) = some m → t.position = m + 1))
    ∧ List.Pairwise (fun a b : Int => a < b)
        (positionsOf 3 (applyAdds emptyStore
          [{ sid := "bob", playlist_id := some 3, song := some sdY8 }]))) :=
  ⟨⟨by decide, by decide, by decide, by decide, by decide⟩,
   add_assigns_max_position_plus_one wStore "alice" { id := 1, session_id := "alice" }
     3 sdY3 emptyStore [{ sid := "bob", playlist_id := some 3, song := some sdY8 }]
     (by decide) (by decide) (by decide) (by decide) (by decide)⟩

/-- C3: adds preserve uniqueness of `(youtube_id, playlist_id)` keys, and
adding a song whose youtube_id is already present in the target playlist
inserts nothing — the store is returned unchanged — and reports success
with the message Song already in playlist. -/
theorem duplicate_add_is_noop (s : Store) (sid : String) (u : User) (pid : Nat)
    (sd : SongData) (hu : findUser s sid = some u) (hpid : pid ≠ 0)
    (hp : (findOwnedPlaylist s pid u.id).isSome = true) (hnd : NoDupSongKeys s) :
    NoDupSongKeys (add_to_playlist s sid (some pid) (some sd)).2
  ∧ ((∃ t ∈ s.songs, t.youtube_id = sd.id ∧ t.playlist_id = pid) →
      add_to_playlist s sid (some pid) (some sd)
        = ({ status := 200, success := true,
             message := some "Song already in playlist" }, s)) := by
  have hc : (!truthyNat (some pid) || (some sd : Option SongData).isNone) = false := by
    simp [truthyNat, hpid]
  obtain ⟨p, hp'⟩ := Option.isSome_iff_exists.mp hp
  constructor
  · cases hdup : s.songs.find?
        (fun t => t.youtube_id == sd.id && t.playlist_id == pid) with
    | some t0 =>
      have hstep : add_to_playlist s sid (some pid) (some sd)
          = ({ status := 200, success := true,
               message := some "Song already in playlist" }, s) := by
        unfold add_to_playlist
        rw [hc]
        simp only [Bool.false_eq_true, if_false, Option.getD_some, gocu_found hu,
          hp', hdup]
      rw [hstep]
      exact hnd
    | none =>
      rw [add_insert_spec hu hpid hp hdup]
      show ((s.songs ++ [mkNewSong s pid sd]).map
          (fun t => (t.youtube_id, t.playlist_id))).Nodup
      rw [List.map_append, List.nodup_append]
      refine ⟨hnd, by simp, ?_⟩
      intro x hx hx2
      simp only [List.map_cons, List.map_nil, List.mem_singleton] at hx2
      obtain ⟨t, ht, hkey⟩ := List.mem_map.mp hx
      have hnone := List.find?_eq_none.mp hdup t ht
      apply hnone
      rw [hx2] at hkey
      have h1 : t.youtube_id = (mkNewSong s pid sd).youtube_id := congrArg Prod.fst hkey
      have h2 : t.playlist_id = (mkNewSong s pid sd).playlist_id := congrArg Prod.snd hkey
      simp only [mkNewSong] at h1 h2
      simp [h1, h2]
  · rintro ⟨t, ht, h1, h2⟩
    have hfind : (s.songs.find?
        (fun t => t.youtube_id == sd.id && t.playlist_id == pid)).isSome = true := by
      rw [List.find?_isSome]
      exact ⟨t, ht, by simp [h1, h2]⟩
    obtain ⟨t0, ht0⟩ := Option.isSome_iff_exists.mp hfind
    unfold add_to_playlist
    rw [hc]
    simp only [Bool.false_eq_true, if_false, Option.getD_some, gocu_found hu, hp', ht0]

/-- C3 witness: adding y1, already in alice's playlist 3, is a no-op with
the already-in-playlist message, and key uniqueness is preserved. -/
theorem duplicate_add_is_noop_witness :
    (findUser wStore "alice" = some { id := 1, session_id := "alice" }
      ∧ (3 : Nat) ≠ 0
      ∧ (findOwnedPlaylist wStore 3 1).isSome = true
      ∧ NoDupSongKeys wStore
      ∧ ∃ t ∈ wStore.songs, t.youtube_id = "y1" ∧ t.playlist_id = 3)
  ∧ NoDupSongKeys (add_to_playlist wStore "alice" (some 3)
      (some { id := "y1", title := "re-add" })).2
  ∧ add_to_playlist wStore "alice" (some 3) (some { id := "y1", title := "re-add" })
      = ({ status := 200, success := true,
           message := some "Song already in playlist" }, wStore) := by
  have hw := duplicate_add_is_noop wStore "alice" { id := 1, session_id := "alice" }
    3 { id := "y1", title := "re-add" } (by decide) (by decide) (by decide)
    (by unfold NoDupSongKeys; decide)
  exact ⟨⟨by decide, by decide, by decide, by unfold NoDupSongKeys; decide, by decide⟩,
    hw.1, hw.2 (by decide)⟩

/-- Under key uniqueness, deleting the first `(youtube_id, playlist_id)`
match deletes every match. -/
theorem eraseP_eq_filter_not {l : List Song}
    (hnd : (l.map (fun t => (t.youtube_id, t.playlist_id))).Nodup)
    (yid : String) (pid : Nat) :
    l.eraseP (fun t => t.youtube_id == yid && t.playlist_id == pid)
      = l.filter (fun t => !(t.youtube_id == yid && t.playlist_id == pid)) := by
  induction l with
  | nil => rfl
  | cons a l ih =>
    rw [List.map_cons, List.nodup_cons] at hnd
    rw [List.eraseP_cons, List.filter_cons]
    by_cases hpa : (a.youtube_id == yid && a.playlist_id == pid) = true
    · rw [hpa]
      simp only [cond_true, Bool.not_true, Bool.false_eq_true, if_false]
      symm
      rw [List.filter_eq_self]
      intro b hb
      simp only [Bool.not_eq_true', Bool.and_eq_false_iff]
      by_contra hcontra
      simp only [Bool.and_eq_false_iff, not_or, Bool.not_eq_false, beq_iff_eq] at hcontra
      apply hnd.1
      rw [List.mem_map]
      refine ⟨b, hb, ?_⟩
      simp only [Bool.and_eq_true, beq_iff_eq] at hpa
      rw [hcontra.1, hcontra.2, hpa.1, hpa.2]
    · rw [Bool.not_eq_true] at hpa
      rw [hpa]
      simp only [cond_false, Bool.not_false, if_true]
      rw [ih hnd.2]

/-- C9: removing a song id absent from the playlist still succeeds and
changes nothing; removing a present id returns success and removes
exactly the rows of that playlist carrying that youtube id (exactly one,
by key uniqueness) — in both cases the resulting store is the original
with the matching songs filtered out. -/
theorem remove_song_idempotent (s : Store) (sid : String) (u : User) (pid : Nat)
    (yid : String) (hu : findUser s sid = some u) (hpid : pid ≠ 0) (hyid : yid ≠ "")
    (hp : (findOwnedPlaylist s pid u.id).isSome = true) (hnd : NoDupSongKeys s) :
    ((∀ t ∈ s.songs, ¬(t.youtube_id = yid ∧ t.playlist_id = pid)) →
        remove_from_playlist s sid (some pid) (some yid)
          = ({ status := 200, success := true }, s))
  ∧ (remove_from_playlist s sid (some pid) (some yid)).1
      = { status := 200, success := true }
  ∧ (remove_from_playlist s sid (some pid) (some yid)).2
      = { s with songs :=
            s.songs.filter (fun t => !(t.youtube_id == yid && t.playlist_id == pid)) } := by
  have hc : (!truthyNat (some pid) || !truthyStr (some yid)) = false := by
    simp [truthyNat, truthyStr, hpid, hyid]
  obtain ⟨p, hp'⟩ := Option.isSome_iff_exists.mp hp
  cases hfind : s.songs.find?
      (fun t => t.youtube_id == yid && t.playlist_id == pid) with
  | none =>
    have hstep : remove_from_playlist s sid (some pid) (some yid)
        = ({ status := 200, success := true }, s) := by
      unfold remove_from_playlist
      rw [hc]
      simp only [Bool.false_eq_true, if_false, Option.getD_some, gocu_found hu,
        hp', hfind]
    refine ⟨fun _ => hstep, by rw [hstep], ?_⟩
    rw [hstep]
    show s = _
    have : s.songs.filter (fun t => !(t.youtube_id == yid && t.playlist_id == pid))
        = s.songs := by
      rw [List.filter_eq_self]
      intro b hb
      have h2 := List.find?_eq_none.mp hfind b hb
      show (!(b.youtube_id == yid && b.playlist_id == pid)) = true
      cases hx : (b.youtube_id == yid && b.playlist_id == pid) with
      | true => exact absurd hx h2
      | false => rfl
    rw [this]
  | some t0 =>
    have hstep : remove_from_playlist s sid (some pid) (some yid)
        = ({ status := 200, success := true },
           { s with songs :=
              s.songs.eraseP (fun t => t.youtube_id == yid && t.playlist_id == pid) }) := by
      unfold remove_from_playlist
      rw [hc]
      simp only [Bool.false_eq_true, if_false, Option.getD_some, gocu_found hu,
        hp', hfind]
    refine ⟨?_, by rw [hstep], ?_⟩
    · intro habs
      have ht0 := List.find?_some hfind
      have ht0mem := List.mem_of_find?_eq_some hfind
      simp only [Bool.and_eq_true, beq_iff_eq] at ht0
      exact absurd ⟨ht0.1, ht0.2⟩ (habs t0 ht0mem)
    · rw [hstep]
      show ({ s with songs := _ } : Store) = _
      rw [eraseP_eq_filter_not hnd]

/-- C9 witness: removing the absent id zz from alice's playlist 3
succeeds and leaves the store unchanged. -/
theorem remove_song_idempotent_witness :
    (findUser wStore "alice" = some { id := 1, session_id := "alice" }
      ∧ (3 : Nat) ≠ 0 ∧ ("zz" : String) ≠ ""
      ∧ (findOwnedPlaylist wStore 3 1).isSome = true
      ∧ NoDupSongKeys wStore
      ∧ ∀ t ∈ wStore.songs, ¬(t.youtube_id = "zz" ∧ t.playlist_id = 3))
  ∧ remove_from_playlist wStore "alice" (some 3) (some "zz")
      = ({ status := 200, success := true }, wStore)
  ∧ (remove_from_playlist wStore "alice" (some 3) (some "zz")).2
      = { wStore with songs :=
            wStore.songs.filter (fun t =>
              !(t.youtube_id == "zz" && t.playlist_id == 3)) } := by
  have hw := remove_song_idempotent wStore "alice" { id := 1, session_id := "alice" }
    3 "zz" (by decide) (by decide) (by decide) (by decide)
    (by unfold NoDupSongKeys; decide)
  exact ⟨⟨by decide, by decide, by decide, by decide,
    by unfold NoDupSongKeys; decide, by decide⟩, hw.1 (by decide), hw.2.2⟩

/-- C10: creating a playlist whose name the session's user already uses
fails with 400 Playlist already exists and adds no row; when the user has
no playlist of that name — even if other users do — creation succeeds and
appends exactly one playlist row for this user. -/
theorem playlist_names_unique_per_user (s : Store) (sid : String) (u : User)
    (n : String) (hu : findUser s sid = some u) (hn : n ≠ "") :
    ((∃ p ∈ s.playlists, p.user_id = u.id ∧ p.name = n) →
        create_playlist s sid (some n)
          = ({ status := 400, error := some "Playlist already exists" }, s))
  ∧ ((∀ p ∈ s.playlists, ¬(p.user_id = u.id ∧ p.name = n)) →
        (create_playlist s sid (some n)).1.status = 200
      ∧ (create_playlist s sid (some n)).1.success = true
      ∧ (create_playlist s sid (some n)).2
          = { s with playlists := s.playlists
                ++ [{ id := freshId (s.playlists.map (fun q => q.id)),
                      name := n, user_id := u.id }] }) := by
  have hc : (!truthyStr (some n)) = false := by
    simp [truthyStr, hn]
  constructor
  · rintro ⟨p, hpmem, h1, h2⟩
    have hfind : (s.playlists.find?
        (fun q => q.user_id == u.id && q.name == n)).isSome = true := by
      rw [List.find?_isSome]
      exact ⟨p, hpmem, by simp [h1, h2]⟩
    obtain ⟨p0, hp0⟩ := Option.isSome_iff_exists.mp hfind
    unfold create_playlist
    rw [hc]
    simp only [Bool.false_eq_true, if_false, Option.getD_some, gocu_found hu, hp0]
  · intro habs
    have hfind : s.playlists.find? (fun q => q.user_id == u.id && q.name == n)
        = none := by
      rw [List.find?_eq_none]
      intro q hq
      simp only [Bool.and_eq_true, beq_iff_eq, not_and]
      intro h1 h2
      exact habs q hq ⟨h1, h2⟩
    have hstep : create_playlist s sid (some n)
        = ({ status := 200, success := true,
             playlist := some (freshId (s.playlists.map (fun q => q.id)), n) },
           { s with playlists := s.playlists
              ++ [{ id := freshId (s.playlists.map (fun q => q.id)),
                    name := n, user_id := u.id }] }) := by
      unfold create_playlist
      rw [hc]
      simp only [Bool.false_eq_true, if_false, Option.getD_some, gocu_found hu, hfind]
    rw [hstep]
    exact ⟨rfl, rfl, rfl⟩

/-- C10 witness: alice owns a playlist named faves; bob, who does not,
creates one of the same name successfully, so the name exists under two
different users while staying unique per user. -/
theorem playlist_names_unique_per_user_witness :
    (findUser wStore "bob" = some { id := 2, session_id := "bob" }
      ∧ ("faves" : String) ≠ ""
      ∧ (∃ p ∈ wStore.playlists, p.name = "faves" ∧ p.user_id ≠ 2)
      ∧ ∀ p ∈ wStore.playlists, ¬(p.user_id = 2 ∧ p.name = "faves"))
  ∧ (create_playlist wStore "bob" (some "faves")).1.status = 200
  ∧ (create_playlist wStore "bob" (some "faves")).1.success = true
  ∧ (create_playlist wStore "bob" (some "faves")).2
      = { wStore with playlists := wStore.playlists
            ++ [{ id := freshId (wStore.playlists.map (fun q => q.id)),
                  name := "faves", user_id := 2 }] } := by
  have hw := (playlist_names_unique_per_user wStore "bob"
    { id := 2, session_id := "bob" } "faves" (by decide) (by decide)).2 (by decide)
  exact ⟨⟨by decide, by decide, by decide, by decide⟩, hw.1, hw.2.1, hw.2.2⟩

/-- C7: a successful playlist delete removes the playlist row and every
song row referencing it (cascade), keeps every other playlist and every
song of other playlists, and leaves the users table unchanged. -/
theorem delete_playlist_cascades (s : Store) (sid : String) (u : User) (pid : Nat)
    (hu : findUser s sid = some u) (hpid : pid ≠ 0)
    (hp : (findOwnedPlaylist s pid u.id).isSome = true) :
    (delete_playlist s sid (some pid)).1 = { status := 200, success := true }
  ∧ (delete_playlist s sid (some pid)).2.users = s.users
  ∧ (delete_playlist s sid (some pid)).2.playlists
      = s.playlists.filter (fun p => p.id != pid)
  ∧ (delete_playlist s sid (some pid)).2.songs
      = s.songs.filter (fun t => t.playlist_id != pid)
  ∧ (∀ p ∈ (delete_playlist s sid (some pid)).2.playlists, p.id ≠ pid)
  ∧ (∀ t ∈ (delete_playlist s sid (some pid)).2.songs, t.playlist_id ≠ pid)
  ∧ (∀ p ∈ s.playlists, p.id ≠ pid → p ∈ (delete_playlist s sid (some pid)).2.playlists)
  ∧ (∀ t ∈ s.songs, t.playlist_id ≠ pid → t ∈ (delete_playlist s sid (some pid)).2.songs)
  ∧ (∀ p ∈ (delete_playlist s sid (some pid)).2.playlists, p ∈ s.playlists)
  ∧ (∀ t ∈ (delete_playlist s sid (some pid)).2.songs, t ∈ s.songs) := by
  have hc : (!truthyNat (some pid)) = false := by
    simp [truthyNat, hpid]
  obtain ⟨p, hp'⟩ := Option.isSome_iff_exists.mp hp
  have hstep : delete_playlist s sid (some pid)
      = ({ status := 200, success := true },
         { s with playlists := s.playlists.filter (fun q => q.id != pid),
                  songs := s.songs.filter (fun t => t.playlist_id != pid) }) := by
    unfold delete_playlist
    rw [hc]
    simp only [Bool.false_eq_true, if_false, Option.getD_some, gocu_found hu, hp']
  rw [hstep]
  refine ⟨rfl, rfl, rfl, rfl, ?_, ?_, ?_, ?_, ?_, ?_⟩
  · intro q hq
    have := (List.mem_filter.mp hq).2
    simpa using this
  · intro t ht
    have := (List.mem_filter.mp ht).2
    simpa using this
  · intro q hq hne
    exact List.mem_filter.mpr ⟨hq, by simpa using hne⟩
  · intro t ht hne
    exact List.mem_filter.mpr ⟨ht, by simpa using hne⟩
  · intro q hq
    exact (List.mem_filter.mp hq).1
  · intro t ht
    exact (List.mem_filter.mp ht).1

/-- C7 witness: deleting alice's playlist 3 removes it and its two songs
while keeping bob's playlist 5, alice's playlist 4, and all users. -/
theorem delete_playlist_cascades_witness :
    (findUser wStore "alice" = some { id := 1, session_id := "alice" }
      ∧ (3 : Nat) ≠ 0
      ∧ (findOwnedPlaylist wStore 3 1).isSome = true)
  ∧ (delete_playlist wStore "alice" (some 3)).1 = { status := 200, success := true }
  ∧ (delete_playlist wStore "alice" (some 3)).2.users = wStore.users
  ∧ (delete_playlist wStore "alice" (some 3)).2.playlists
      = wStore.playlists.filter (fun p => p.id != 3)
  ∧ (delete_playlist wStore "alice" (some 3)).2.songs
      = wStore.songs.filter (fun t => t.playlist_id != 3)
  ∧ (∀ p ∈ (delete_playlist wStore "alice" (some 3)).2.playlists, p.id ≠ 3) := by
  have hw := delete_playlist_cascades wStore "alice" { id := 1, session_id := "alice" }
    3 (by decide) (by decide) (by decide)
  exact ⟨⟨by decide, by decide, by decide⟩, hw.1, hw.2.1, hw.2.2.1, hw.2.2.2.1,
    hw.2.2.2.2.1⟩

/-- Iterating `add_to_playlist` over fresh, pairwise-distinct song
payloads: the users and playlists tables are untouched and the playlist's
song list grows by one appended row per payload, in request order, with
strictly increasing positions. -/
theorem addSongs_spec (sid : String) (pid : Nat) (u : User) (hpid : pid ≠ 0) :
    ∀ (sds : List SongData) (s : Store),
      findUser s sid = some u →
      (findOwnedPlaylist s pid u.id).isSome = true →
      (∀ t ∈ s.songs, t.playlist_id = pid → ∀ x ∈ sds, t.youtube_id ≠ x.id) →
      (sds.map (fun x => x.id)).Nodup →
      List.Pairwise (fun a b : Song => a.position < b.position) (songsOf pid s) →
      (addSongs s sid pid sds).users = s.users
      ∧ (addSongs s sid pid sds).playlists = s.playlists
      ∧ ∃ ts : List Song,
          songsOf pid (addSongs s sid pid sds) = songsOf pid s ++ ts
          ∧ ts.map songOut = sds
          ∧ List.Pairwise (fun a b : Song => a.position < b.position)
              (songsOf pid s ++ ts) := by
  intro sds
  induction sds with
  | nil =>
    intro s hu hp hfree hnd hpair
    exact ⟨rfl, rfl, [], by rw [List.append_nil]; rfl, rfl, by simpa using hpair⟩
  | cons sd sds ih =>
    intro s hu hp hfree hnd hpair
    have hdup : s.songs.find?
        (fun t => t.youtube_id == sd.id && t.playlist_id == pid) = none := by
      rw [List.find?_eq_none]
      intro t ht
      simp only [Bool.and_eq_true, beq_iff_eq, not_and]
      intro h1 h2
      exact absurd h1 (hfree t ht h2 sd (List.mem_cons_self _ _))
    have haddSongs : addSongs s sid pid (sd :: sds)
        = addSongs { s with songs := s.songs ++ [mkNewSong s pid sd] } sid pid sds := by
      show addSongs (add_to_playlist s sid (some pid) (some sd)).2 sid pid sds = _
      rw [add_insert_spec hu hpid hp hdup]
    have hsongsOf2 : songsOf pid { s with songs := s.songs ++ [mkNewSong s pid sd] }
        = songsOf pid s ++ [mkNewSong s pid sd] := by
      unfold songsOf
      show (s.songs ++ [mkNewSong s pid sd]).filter _ = _
      rw [List.filter_append]
      congr 1
      rw [List.filter_cons]
      simp [mkNewSong]
    have hu2 : findUser { s with songs := s.songs ++ [mkNewSong s pid sd] } sid
        = some u := hu
    have hp2 : (findOwnedPlaylist { s with songs := s.songs ++ [mkNewSong s pid sd] }
        pid u.id).isSome = true := hp
    have hfree2 : ∀ t ∈ ({ s with songs := s.songs ++ [mkNewSong s pid sd] } : Store).songs,
        t.playlist_id = pid → ∀ x ∈ sds, t.youtube_id ≠ x.id := by
      intro t ht htp x hx
      rcases List.mem_append.mp ht with ht' | ht'
      · exact hfree t ht' htp x (List.mem_cons_of_mem _ hx)
      · simp only [List.mem_singleton] at ht'
        subst ht'
        rw [List.map_cons, List.nodup_cons] at hnd
        intro hcontra
        apply hnd.1
        rw [List.mem_map]
        exact ⟨x, hx, hcontra.symm⟩
    have hnd2 : (sds.map (fun x => x.id)).Nodup := by
      rw [List.map_cons, List.nodup_cons] at hnd
      exact hnd.2
    have hpair2 : List.Pairwise (fun a b : Song => a.position < b.position)
        (songsOf pid { s with songs := s.songs ++ [mkNewSong s pid sd] }) := by
      rw [hsongsOf2, List.pairwise_append]
      refine ⟨hpair, by simp, ?_⟩
      intro a ha b hb
      simp only [List.mem_singleton] at hb
      subst hb
      show a.position < nextPosition pid s
      exact lt_nextPosition a ha
    obtain ⟨hus, hpl, ts, heq, hmap, hpairf⟩ := ih _ hu2 hp2 hfree2 hnd2 hpair2
    rw [haddSongs]
    refine ⟨hus, hpl, mkNewSong s pid sd :: ts, ?_, ?_, ?_⟩
    · rw [heq, hsongsOf2, List.append_assoc]
      rfl
    · rw [List.map_cons, hmap]
      exact rfl
    · rw [hsongsOf2, List.append_assoc] at hpairf
      exact hpairf

/-- C6: the playlist view sorts by ascending position, so after any
sequence of successful distinct adds to a fresh playlist, get-playlist
returns the songs exactly in the order they were added. -/
theorem get_playlist_returns_insertion_order (s : Store) (sid : String) (u : User)
    (pid : Nat) (sds : List SongData)
    (hu : findUser s sid = some u) (hpid : pid ≠ 0)
    (hp : (findOwnedPlaylist s pid u.id).isSome = true)
    (hempty : songsOf pid s = [])
    (hdistinct : (sds.map (fun x => x.id)).Nodup) :
    (get_playlist (addSongs s sid pid sds) sid pid).1.status = 200
  ∧ (get_playlist (addSongs s sid pid sds) sid pid).1.songs = some sds := by
  have hfree : ∀ t ∈ s.songs, t.playlist_id = pid → ∀ x ∈ sds, t.youtube_id ≠ x.id := by
    intro t ht htp x hx
    have hmem : t ∈ songsOf pid s := List.mem_filter.mpr ⟨ht, by simp [htp]⟩
    rw [hempty] at hmem
    simp at hmem
  obtain ⟨husers, hplists, ts, heq, hmap, hpair⟩ :=
    addSongs_spec sid pid u hpid sds s hu hp hfree hdistinct
      (by rw [hempty]; exact List.Pairwise.nil)
  have hu' : findUser (addSongs s sid pid sds) sid = some u := by
    unfold findUser
    rw [husers]
    exact hu
  have hp' : (findOwnedPlaylist (addSongs s sid pid sds) pid u.id).isSome = true := by
    unfold findOwnedPlaylist
    rw [hplists]
    exact hp
  obtain ⟨p, hp2⟩ := Option.isSome_iff_exists.mp hp'
  have hg : get_playlist (addSongs s sid pid sds) sid pid
      = ({ status := 200, playlist := some (p.id, p.name),
           songs := some ((sortByPosition (songsOf pid (addSongs s sid pid sds))).map
             songOut) }, (addSongs s sid pid sds)) := by
    unfold get_playlist
    simp only [gocu_found hu', hp2]
  rw [hg]
  refine ⟨rfl, ?_⟩
  have hts : songsOf pid (addSongs s sid pid sds) = ts := by
    rw [heq, hempty, List.nil_append]
  rw [hempty, List.nil_append] at hpair
  have hsorted : List.Sorted (fun a b : Song => a.position ≤ b.position) ts :=
    hpair.imp (fun hab => le_of_lt hab)
  show some ((sortByPosition (songsOf pid (addSongs s sid pid sds))).map songOut) = _
  rw [hts]
  unfold sortByPosition
  rw [List.Sorted.insertionSort_eq hsorted, hmap]

/-- C6 witness: adding y9 then y8 to alice's empty playlist 4 and reading
it back returns them in that order. -/
theorem get_playlist_returns_insertion_order_witness :
    (findUser wStore "alice" = some { id := 1, session_id := "alice" }
      ∧ (4 : Nat) ≠ 0
      ∧ (findOwnedPlaylist wStore 4 1).isSome = true
      ∧ songsOf 4 wStore = []
      ∧ (([sdY9, sdY8].map (fun x => x.id)).Nodup))
  ∧ (get_playlist (addSongs wStore "alice" 4 [sdY9, sdY8]) "alice" 4).1.status = 200
  ∧ (get_playlist (addSongs wStore "alice" 4 [sdY9, sdY8]) "alice" 4).1.songs
      = some [sdY9, sdY8] := by
  have hw := get_playlist_returns_insertion_order wStore "alice"
    { id := 1, session_id := "alice" } 4 [sdY9, sdY8]
    (by decide) (by decide) (by decide) (by decide) (by decide)
  exact ⟨⟨by decide, by decide, by decide, by decide, by decide⟩, hw.1, hw.2⟩

end Vufo
